import Mathlib

/-!
Formal model of the GTIN validation pipeline in `GTIN_Validation_v2.py`.

The pipeline chunks identifier lists (`chunk_list`), posts each chunk with
bounded exponential backoff (`post_with_retry`), normalizes the JSON payload
of a 200 response onto a fixed five-column schema (`pd.json_normalize` plus
the `COLUMNS_OF_INTEREST` projection), collects one table per input file and
a combined table over all files (the `all_data` / `individual_results`
accumulation in the main loop).

The embedding is shallow: network behaviour is an oracle attached to each
source giving the outcome of every (batch, attempt) pair; pandas frames are
lists of association-list rows with an explicit column list; a raised Python
exception is `Except.error ()`.
-/

/-- Fixed output schema, `COLUMNS_OF_INTEREST` at line 42 of the source. -/
def COLUMNS_OF_INTEREST : List String :=
  ["gtin", "gs1Licence.licenseeName", "gs1Licence.licenceKey",
   "gs1Licence.licenseeGLN", "validationErrors"]

/-- Model of `chunk_list(lst, n)` (source lines 45-47):
`for i in range(0, len(lst), n): yield lst[i:i+n]`.
For `n > 0`, `range(0, L, n)` enumerates the `(L + n - 1) / n` indices
`0, n, 2n, …` below `L`, and the Python slice `lst[i:i+n]` is
`(lst.drop i).take n`. (`n = 0` raises `ValueError` in Python and is outside
the modelled domain; every use in the source has `n = 10`.) -/
def chunk_list {α : Type} (lst : List α) (n : Nat) : List (List α) :=
  (List.range' 0 ((lst.length + n - 1) / n) n).map (fun i => (lst.drop i).take n)

/-- One flattened product entry of the JSON payload, as `pd.json_normalize`
sees it: an association list from dotted-path keys to cell values. -/
abbrev Entry := List (String × String)

/-- Parsed JSON body of a response. `products = none` models a JSON object
with no `products` key (the `if 'products' in data` check at line 108). -/
structure Payload where
  products : Option (List Entry)
deriving DecidableEq

/-- An HTTP response. `body = none` models a body that is not valid JSON, so
that `response.json()` (line 107) raises. -/
structure HttpResponse where
  status : Nat
  body : Option Payload
deriving DecidableEq

/-- Outcome of one network attempt: either `requests.post` raises a
`RequestException`, or it returns a response. -/
inductive AttemptOutcome where
  | exc
  | resp (r : HttpResponse)
deriving DecidableEq

/-- An attempt outcome is transient when the retry loop of `post_with_retry`
sleeps and moves to the next attempt: a 503 status or a network exception. -/
def isTransient : AttemptOutcome → Bool
  | .exc => true
  | .resp r => r.status == 503

/-- Retry loop of `post_with_retry` (source lines 49-59), parametrised by an
oracle `o` giving the outcome of each attempt. `k` is the value of `attempt`,
`fuel` the number of loop iterations left out of `max_retries`. Returns the
final value (`none` models the `return None` after the loop) together with
the list of `time.sleep` durations in order. -/
def retryFrom (o : Nat → AttemptOutcome) : Nat → Nat → Option HttpResponse × List Nat
  | _, 0 => (none, [])
  | k, fuel + 1 =>
    match o k with
    | .exc =>
      let p := retryFrom o (k + 1) fuel
      (p.1, 2 ^ k :: p.2)
    | .resp r =>
      if r.status = 503 then
        let p := retryFrom o (k + 1) fuel
        (p.1, 2 ^ k :: p.2)
      else (some r, [])

/-- Model of `post_with_retry(url, headers, data, max_retries)`: run the
attempt loop from `attempt = 0`. The url, headers and posted chunk are
absorbed into the oracle. -/
def post_with_retry (o : Nat → AttemptOutcome) (max_retries : Nat) :
    Option HttpResponse × List Nat :=
  retryFrom o 0 max_retries

/-- A pandas DataFrame as the pipeline uses it: an ordered column list plus
rows stored as association lists; a key absent from a row is the missing
value `pd.NA` / `NaN` in that cell. -/
structure DataFrame where
  cols : List String
  rows : List Entry
deriving DecidableEq

/-- Order-preserving first-occurrence deduplication (helper for column
lists), written with an accumulator. -/
def dedupAcc (acc : List String) : List String → List String
  | [] => acc
  | a :: l => if a ∈ acc then dedupAcc acc l else dedupAcc (acc ++ [a]) l

/-- First-occurrence deduplication of a list of column names. -/
def dedupFirst (l : List String) : List String := dedupAcc [] l

/-- Model of `pd.json_normalize(data['products'])` (line 109): the columns
are the flattened keys in order of first appearance; each entry is one row
(keys the entry lacks read as missing). -/
def jsonNormalize (entries : List Entry) : DataFrame :=
  { cols := dedupFirst (entries.flatMap (fun e => e.map Prod.fst)),
    rows := entries }

/-- Model of the loop at lines 110-112:
`for col in COLUMNS_OF_INTEREST: if col not in products_data.columns:
products_data[col] = pd.NA` — assigning a fresh column appends it at the end
with every cell missing, so the rows are unchanged. -/
def addMissing (df : DataFrame) (cs : List String) : DataFrame :=
  cs.foldl (fun d c => if c ∈ d.cols then d else { d with cols := d.cols ++ [c] }) df

/-- Restriction of one row to the columns `cs`, in the order of `cs`: a key
the row lacks stays missing. -/
def projRow (cs : List String) (r : Entry) : Entry :=
  cs.filterMap (fun c => (r.lookup c).map (fun v => (c, v)))

/-- Model of column projection `df[cs]` (line 113). Pandas raises `KeyError`
when a requested column is absent, hence the `Option`; otherwise the frame
keeps exactly the columns `cs` in that order and each row is restricted to
those keys. -/
def selectCols (df : DataFrame) (cs : List String) : Option DataFrame :=
  if ∀ c ∈ cs, c ∈ df.cols then
    some { cols := cs, rows := df.rows.map (projRow cs) }
  else none

/-- The Result Normalizer (lines 109-113): normalize the product entries,
add the missing schema columns, project onto `COLUMNS_OF_INTEREST`. -/
def normalizeProducts (entries : List Entry) : Option DataFrame :=
  selectCols (addMissing (jsonNormalize entries) COLUMNS_OF_INTEREST) COLUMNS_OF_INTEREST

/-- Reading one raw cell with `pd.read_csv(..., dtype=str)` /
`pd.read_excel(..., dtype=str)` (line 83): with the pandas default NA
handling an empty field becomes `NaN` (here `none`), so empty as well as
absent cells are the missing value, which `.dropna()` later removes. -/
def readCell (s : String) : Option String :=
  if s = "" then none else some s

/-- Model of `df[gtin_col].dropna().astype(str).tolist()` (line 95) applied
to the raw cells of the identifier column: the cells that survived the read
as non-missing, in order. -/
def extractGtins (cells : List String) : List String :=
  cells.filterMap readCell

/-- One parsed input file: the ordered columns, each with its raw cells. -/
structure RawFrame where
  cols : List (String × List String)

/-- Column names of a frame, in order. -/
def colNames (f : RawFrame) : List String := f.cols.map Prod.fst

/-- ASCII lowercasing of one character, as Python's `str.lower()` acts on
the header characters in the modelled domain. -/
def lowerChar (c : Char) : Char :=
  if 'A' ≤ c ∧ c ≤ 'Z' then Char.ofNat (c.toNat + 32) else c

/-- Model of Python's `col.lower()` on a column header. -/
def lowerStr (s : String) : String :=
  String.mk (s.data.map lowerChar)

/-- Model of `normalized_cols = {col.lower(): col for col in df.columns}`
followed by `normalized_cols['gtin']` (lines 89-94): a dict comprehension
keeps the last column whose lowercased name is the key, and the lookup
fails exactly when no column name lowercases to `"gtin"`. -/
def findGtinCol (f : RawFrame) : Option String :=
  ((colNames f).filter (fun c => lowerStr c == "gtin")).getLast?

/-- Raw cells of the named column (`df[gtin_col]`). -/
def colCells (f : RawFrame) (c : String) : List String :=
  (f.cols.lookup c).getD []

/-- One input source of a run: its file name, the parse result of line 83
(`none` models a read exception, caught at lines 84-86), and the network
oracle giving the outcome of every (batch index, attempt) pair for this
source's requests. -/
structure Source where
  name : String
  frame : Option RawFrame
  net : Nat → Nat → AttemptOutcome

/-- Handling of one batch's final response in the loop at lines 105-113:
`None` or a non-200 status contributes nothing; on a 200, `response.json()`
raises when the body is not valid JSON (`Except.error ()`); a payload
without `products` contributes nothing; otherwise the normalized frame is
appended. -/
def processChunk (resp : Option HttpResponse) : Except Unit (Option DataFrame) :=
  match resp with
  | none => .ok none
  | some r =>
    if r.status = 200 then
      match r.body with
      | none => .error ()
      | some payload =>
        match payload.products with
        | none => .ok none
        | some entries =>
          match normalizeProducts entries with
          | none => .error ()
          | some df => .ok (some df)
    else .ok none

/-- One iteration of the batch loop for the batch with oracle `o`: post with
retry (`max_retries = 5`), then handle the response. -/
def chunkStep (o : Nat → AttemptOutcome) : Except Unit (Option DataFrame) :=
  processChunk (post_with_retry o 5).1

/-- The batch loop (lines 104-113) over the chunks of one source, `i` the
batch index: accumulates the normalized frames (`results_df`) in batch
order; a raised exception aborts. The chunk contents are carried by the
oracle, so only the number of chunks drives the iteration. -/
def runChunks (net : Nat → Nat → AttemptOutcome) (i : Nat) :
    List (List String) → Except Unit (List DataFrame)
  | [] => .ok []
  | _ :: cs =>
    match chunkStep (net i) with
    | .error e => .error e
    | .ok none => runChunks net (i + 1) cs
    | .ok (some df) =>
      match runChunks net (i + 1) cs with
      | .error e => .error e
      | .ok dfs => .ok (df :: dfs)

/-- Outcome of processing one input file in the main loop. The first four
constructors are the `continue` / warning paths (lines 84-86, 90-92, 96-98,
123-124); `ok` carries the source's table (line 120). -/
inductive FileResult where
  | readError
  | noColumn
  | noGtins
  | noValidResults
  | ok (table : DataFrame)
deriving DecidableEq

/-- Model of `pd.concat(dfs, ignore_index=True)` (lines 120 and 127):
columns are the union in order of first appearance, rows are concatenated. -/
def concatDF (dfs : List DataFrame) : DataFrame :=
  { cols := dedupFirst (dfs.flatMap DataFrame.cols),
    rows := dfs.flatMap DataFrame.rows }

/-- Processing of one input file (lines 79-124): read, find the identifier
column case-insensitively, extract the identifiers, run the batch loop over
chunks of 10, and concatenate the per-batch frames when any were collected. -/
def processFile (src : Source) : Except Unit FileResult :=
  match src.frame with
  | none => .ok .readError
  | some f =>
    match findGtinCol f with
    | none => .ok .noColumn
    | some gc =>
      let gtins := extractGtins (colCells f gc)
      if gtins = [] then .ok .noGtins
      else
        match runChunks src.net 0 (chunk_list gtins 10) with
        | .error e => .error e
        | .ok [] => .ok .noValidResults
        | .ok dfs => .ok (.ok (concatDF dfs))

/-- Python dict assignment `d[k] = v` with insertion-order semantics: an
existing key keeps its position and gets the new value, a fresh key is
appended. -/
def dictInsert (d : List (String × DataFrame)) (k : String) (v : DataFrame) :
    List (String × DataFrame) :=
  if d.any (fun p => p.1 == k) then
    d.map (fun p => if p.1 == k then (k, v) else p)
  else d ++ [(k, v)]

/-- The main loop over the uploaded files (lines 75-124), accumulating
`all_data` and `individual_results`. -/
def runFiles (allData : List DataFrame) (ind : List (String × DataFrame)) :
    List Source → Except Unit (List DataFrame × List (String × DataFrame))
  | [] => .ok (allData, ind)
  | s :: ss =>
    match processFile s with
    | .error e => .error e
    | .ok (.ok t) => runFiles (allData ++ [t]) (dictInsert ind s.name t) ss
    | .ok _ => runFiles allData ind ss

/-- Terminal state of a run (lines 126-133): either the Run Result Set —
`individual_results` plus the combined table — or the run-level
`"No data was processed"` error. -/
inductive RunOutcome where
  | success (individual : List (String × DataFrame)) (combined : DataFrame)
  | noData
deriving DecidableEq

/-- The whole run over the uploaded files: process every file, then either
finalize the Run Result Set or signal the run-level failure; `Except.error`
is an exception escaping the main loop. -/
def runMain (sources : List Source) : Except Unit RunOutcome :=
  match runFiles [] [] sources with
  | .error e => .error e
  | .ok (allData, ind) =>
    if allData.isEmpty then .ok .noData
    else .ok (.success ind (concatDF allData))

/-- The tables of the sources that are not skipped, in processing order:
the values appended to `all_data` (line 121). -/
def okTables : List Source → List DataFrame
  | [] => []
  | s :: ss =>
    match processFile s with
    | .ok (.ok t) => t :: okTables ss
    | _ => okTables ss

/-- Fixture: a network oracle whose every attempt returns a 200 response
with a single product entry carrying the given gtin value. -/
def okNet (g : String) : Nat → Nat → AttemptOutcome := fun _ _ =>
  .resp { status := 200, body := some { products := some [[("gtin", g)]] } }

/-- Fixture: a source named `f.csv` whose only product resolves to gtin A. -/
def srcA : Source :=
  { name := "f.csv", frame := some ⟨[("gtin", ["A"])]⟩, net := okNet "A" }

/-- Fixture: a second source also named `f.csv`, resolving to gtin B. -/
def srcB : Source :=
  { name := "f.csv", frame := some ⟨[("gtin", ["B"])]⟩, net := okNet "B" }

/-- Fixture: a source with a `SKU` column instead of a `GTIN` column. -/
def srcSku : Source :=
  { name := "s.csv", frame := some ⟨[("SKU", ["1"])]⟩, net := okNet "X" }

/-- Fixture: a well-formed source named `g.csv` resolving to gtin G. -/
def srcGood : Source :=
  { name := "g.csv", frame := some ⟨[("GTIN", ["G"])]⟩, net := okNet "G" }

/-- Fixture: a source whose one batch gets a 200 response with a body that
is not valid JSON. -/
def srcBadJson : Source :=
  { name := "b.csv", frame := some ⟨[("gtin", ["Z"])]⟩,
    net := fun _ _ => .resp { status := 200, body := none } }

/-- Fixture: the attempt schedule of Scenario 2, three 503 responses then a
200 response with an empty product list. -/
def netScenario2 : Nat → AttemptOutcome := fun k =>
  if k < 3 then .resp { status := 503, body := none }
  else .resp { status := 200, body := some { products := some [] } }

/-- Fixture: every attempt raises a network exception. -/
def netAllExc : Nat → AttemptOutcome := fun _ => .exc

/-- A Product Record conforms to the fixed schema when every field it
carries is one of the five schema columns; a schema column absent from the
record is the explicit missing marker. -/
def rowConforms (r : Entry) : Prop :=
  ∀ p ∈ r, p.1 ∈ COLUMNS_OF_INTEREST

/-- A table has the fixed schema: exactly the five columns in the fixed
order, and every record defined only on those columns. -/
def schemaOK (df : DataFrame) : Prop :=
  df.cols = COLUMNS_OF_INTEREST ∧ ∀ r ∈ df.rows, rowConforms r

/-- Fixture: the table produced for a source whose one product entry is
`{"gtin": "A"}`. -/
def tblA : DataFrame :=
  { cols := COLUMNS_OF_INTEREST, rows := [[("gtin", "A")]] }

/-- Fixture: the table produced for a source whose one product entry is
`{"gtin": "B"}`. -/
def tblB : DataFrame :=
  { cols := COLUMNS_OF_INTEREST, rows := [[("gtin", "B")]] }

/-- Fixture: the table produced for a source whose one product entry is
`{"gtin": "G"}`. -/
def tblG : DataFrame :=
  { cols := COLUMNS_OF_INTEREST, rows := [[("gtin", "G")]] }

/-- Fixture: the combined table of a run over `srcA` then `srcB`. -/
def combAB : DataFrame :=
  { cols := COLUMNS_OF_INTEREST, rows := [[("gtin", "A")], [("gtin", "B")]] }

/- ### Lemmas about the Chunker -/

theorem chunk_list_length {α : Type} (l : List α) (n : Nat) :
    (chunk_list l n).length = (l.length + n - 1) / n := by
  simp [chunk_list]

theorem chunk_list_nil {α : Type} (n : Nat) :
    chunk_list ([] : List α) n = [] := by
  have h : (0 + n - 1) / n = 0 := by
    rcases Nat.eq_zero_or_pos n with h | h
    · subst h; rfl
    · exact Nat.div_eq_of_lt (by omega)
  simp only [chunk_list, List.length_nil, h, List.range', List.map_nil]

theorem chunk_list_getElem {α : Type} (l : List α) (n i : Nat)
    (h : i < (chunk_list l n).length) :
    (chunk_list l n)[i] = (l.drop (n * i)).take n := by
  have h' : i < ((l.length + n - 1) / n) := by
    simpa [chunk_list] using h
  simp [chunk_list]

theorem ceil_div_shift (L n : Nat) (hn : 0 < n) (hL : 0 < L) :
    (L + n - 1) / n = (L - 1) / n + 1 := by
  have h1 : L + n - 1 = (L - 1) + n := by omega
  rw [h1, Nat.add_div_right _ hn]

theorem chunk_list_cons {α : Type} (l : List α) (n : Nat) (hn : 0 < n)
    (hl : l ≠ []) :
    chunk_list l n = l.take n :: chunk_list (l.drop n) n := by
  have hL : 0 < l.length := List.length_pos.mpr hl
  rw [chunk_list, ceil_div_shift _ _ hn hL, List.range'_succ]
  simp only [List.map_cons, List.drop_zero]
  congr 1
  rw [chunk_list]
  have hk : ((l.drop n).length + n - 1) / n = (l.length - 1) / n := by
    simp only [List.length_drop]
    rcases Nat.lt_or_ge l.length (n + 1) with h | h
    · have h0 : l.length - n = 0 := by omega
      rw [h0, Nat.div_eq_of_lt (by omega), Nat.div_eq_of_lt (by omega)]
    · have h1 : l.length - n + n - 1 = (l.length - n - 1) + n := by omega
      have h2 : l.length - 1 = (l.length - n - 1) + n := by omega
      rw [h1, Nat.add_div_right _ hn, h2, Nat.add_div_right _ hn]
  rw [hk]
  apply List.ext_getElem
  · simp
  · intro i h1 h2
    simp only [List.getElem_map, List.getElem_range', List.drop_drop]
    congr 2
    omega

theorem chunk_list_flatten_aux {α : Type} (n : Nat) (hn : 0 < n) :
    ∀ (L : Nat) (l : List α), l.length ≤ L → (chunk_list l n).flatten = l := by
  intro L
  induction L with
  | zero =>
    intro l hl
    have : l = [] := List.length_eq_zero.mp (Nat.le_zero.mp hl)
    subst this
    rw [chunk_list_nil]
    rfl
  | succ L ih =>
    intro l hl
    by_cases h0 : l = []
    · subst h0; rw [chunk_list_nil]; rfl
    · rw [chunk_list_cons l n hn h0, List.flatten_cons,
        ih (l.drop n) (by simp only [List.length_drop]; omega),
        List.take_append_drop]

theorem chunk_list_flatten {α : Type} (l : List α) (n : Nat) (hn : 0 < n) :
    (chunk_list l n).flatten = l :=
  chunk_list_flatten_aux n hn l.length l (Nat.le_refl _)

theorem chunk_list_length_le {α : Type} (l : List α) (n i : Nat)
    (h : i < (chunk_list l n).length) : (chunk_list l n)[i].length ≤ n := by
  rw [chunk_list_getElem]
  simp

theorem chunk_list_full_size {α : Type} (l : List α) (n i : Nat) (hn : 0 < n)
    (h : i < (chunk_list l n).length) (h' : i + 1 < (chunk_list l n).length) :
    (chunk_list l n)[i].length = n := by
  rw [chunk_list_getElem]
  have hL : 0 < l.length := by
    by_contra hc
    have : l = [] := List.length_eq_zero.mp (by omega)
    subst this
    rw [chunk_list_nil] at h
    exact absurd h (by simp)
  have hk : (chunk_list l n).length = (l.length - 1) / n + 1 := by
    rw [chunk_list_length, ceil_div_shift _ _ hn hL]
  have hle : i + 1 ≤ (l.length - 1) / n := by omega
  have hmul : (i + 1) * n ≤ l.length - 1 :=
    (Nat.le_div_iff_mul_le hn).mp hle
  have hsucc : (i + 1) * n = i * n + n := Nat.succ_mul i n
  have hcomm : n * i = i * n := Nat.mul_comm n i
  simp only [List.length_take, List.length_drop]
  omega

theorem mod_pred_succ (L n : Nat) (hn : 0 < n) (hL : 0 < L) :
    (L - 1) % n + 1 = if L % n = 0 then n else L % n := by
  have hqr : n * (L / n) + L % n = L := Nat.div_add_mod L n
  have hrn : L % n < n := Nat.mod_lt _ hn
  by_cases h0 : L % n = 0
  · rw [if_pos h0]
    rw [h0, Nat.add_zero] at hqr
    have hnL : n ≤ L := by
      by_contra hc
      push_neg at hc
      rw [Nat.mod_eq_of_lt hc] at h0
      omega
    have hq1 : 1 ≤ L / n := (Nat.one_le_div_iff hn).mpr hnL
    have h2 : n * (L / n - 1) + n = n * (L / n) := by
      have h3 : L / n - 1 + 1 = L / n := by omega
      calc n * (L / n - 1) + n = n * (L / n - 1 + 1) := by
            rw [Nat.mul_add, Nat.mul_one]
        _ = n * (L / n) := by rw [h3]
    have key : L - 1 = n * (L / n - 1) + (n - 1) := by omega
    rw [key, Nat.mul_add_mod, Nat.mod_eq_of_lt (by omega)]
    omega
  · rw [if_neg h0]
    have key : L - 1 = n * (L / n) + (L % n - 1) := by omega
    rw [key, Nat.mul_add_mod, Nat.mod_eq_of_lt (by omega)]
    omega

theorem chunk_list_last_length {α : Type} (l : List α) (n : Nat) (hn : 0 < n)
    (hl : l ≠ []) :
    Option.map List.length (chunk_list l n).getLast?
      = some (if l.length % n = 0 then n else l.length % n) := by
  have hL : 0 < l.length := List.length_pos.mpr hl
  have hk : (chunk_list l n).length = (l.length - 1) / n + 1 := by
    rw [chunk_list_length, ceil_div_shift _ _ hn hL]
  have hpos : 0 < (chunk_list l n).length := by
    rw [hk]; exact Nat.succ_pos _
  have hidx : (chunk_list l n).length - 1 < (chunk_list l n).length := by omega
  have hlt : (l.length - 1) / n < (chunk_list l n).length := by omega
  have hlast : (chunk_list l n).getLast?
      = some ((chunk_list l n)[(l.length - 1) / n]) := by
    rw [List.getLast?_eq_getElem?, List.getElem?_eq_getElem hidx]
    congr 1
    congr 1
    omega
  rw [hlast, chunk_list_getElem, Option.map_some']
  congr 1
  simp only [List.length_take, List.length_drop]
  have hm := Nat.div_add_mod (l.length - 1) n
  have hmod : (l.length - 1) % n < n := Nat.mod_lt _ hn
  rw [← mod_pred_succ l.length n hn hL]
  omega

/-- C1: for every identifier list of length L and chunk size N > 0, the
Chunker (`chunk_list`) produces exactly ⌈L/N⌉ = (L + N - 1) / N batches,
each of size N except possibly the last, whose size is L mod N (or N when
L mod N = 0); concatenating the batches in order reproduces the original
list exactly; and an empty input list yields an empty sequence of batches
(zero iterations) rather than an error. -/
theorem c1_chunker (l : List String) (n : Nat) (hn : 0 < n) :
    (chunk_list l n).length = (l.length + n - 1) / n ∧
    (chunk_list l n).flatten = l ∧
    (∀ i : Nat, ∀ h : i < (chunk_list l n).length,
      i + 1 < (chunk_list l n).length → (chunk_list l n)[i].length = n) ∧
    (l ≠ [] → Option.map List.length (chunk_list l n).getLast?
        = some (if l.length % n = 0 then n else l.length % n)) ∧
    (l = [] → chunk_list l n = []) := by
  refine ⟨chunk_list_length l n, chunk_list_flatten l n hn,
    fun i h h' => chunk_list_full_size l n i hn h h',
    fun h => chunk_list_last_length l n hn h, fun h => ?_⟩
  subst h
  exact chunk_list_nil n

/-- Witness for C1: the list `["a", "b", "c"]` with chunk size 2 gives the
batches `[["a", "b"], ["c"]]`, whose concatenation is the input. -/
theorem c1_chunker_witness :
    chunk_list ["a", "b", "c"] 2 = [["a", "b"], ["c"]] ∧
    (chunk_list ["a", "b", "c"] 2).flatten = ["a", "b", "c"] := by
  constructor
  · rfl
  · exact (c1_chunker ["a", "b", "c"] 2 (by decide)).2.1

/- ### Lemmas about the Retrying Request Client -/

theorem retryFrom_transient_prefix (o : Nat → AttemptOutcome) (r : HttpResponse)
    (hs : r.status ≠ 503) :
    ∀ (m k fuel : Nat), m < fuel →
      (∀ i, i < m → isTransient (o (k + i)) = true) →
      o (k + m) = .resp r →
      retryFrom o k fuel = (some r, (List.range' k m).map (fun j => 2 ^ j)) := by
  intro m
  induction m with
  | zero =>
    intro k fuel hf ht hr
    rw [Nat.add_zero] at hr
    cases fuel with
    | zero => omega
    | succ f =>
      rw [retryFrom, hr]
      simp [hs]
  | succ m ih =>
    intro k fuel hf ht hr
    cases fuel with
    | zero => omega
    | succ f =>
      have h0 : isTransient (o k) = true := by
        have := ht 0 (Nat.succ_pos m)
        simpa using this
      have hrec : retryFrom o (k + 1) f
          = (some r, (List.range' (k + 1) m).map (fun j => 2 ^ j)) := by
        apply ih (k + 1) f (by omega)
        · intro i hi
          have := ht (i + 1) (by omega)
          have harr : k + (i + 1) = k + 1 + i := by omega
          rwa [harr] at this
        · have harr : k + (m + 1) = k + 1 + m := by omega
          rwa [harr] at hr
      have hlist : (List.range' k (m + 1)).map (fun j => 2 ^ j)
          = 2 ^ k :: (List.range' (k + 1) m).map (fun j => 2 ^ j) := by
        rw [List.range'_succ]
        rfl
      cases ho : o k with
      | exc =>
        rw [retryFrom, ho, hrec, hlist]
      | resp r' =>
        have h503 : r'.status = 503 := by
          have := h0
          rw [ho] at this
          simpa [isTransient] using this
        rw [retryFrom, ho]
        dsimp only
        rw [if_pos h503, hrec, hlist]

theorem retryFrom_all_transient (o : Nat → AttemptOutcome) :
    ∀ (fuel k : Nat), (∀ i, i < fuel → isTransient (o (k + i)) = true) →
      retryFrom o k fuel = (none, (List.range' k fuel).map (fun j => 2 ^ j)) := by
  intro fuel
  induction fuel with
  | zero => intro k ht; rfl
  | succ f ih =>
    intro k ht
    have h0 : isTransient (o k) = true := by
      have := ht 0 (Nat.succ_pos f)
      simpa using this
    have hrec : retryFrom o (k + 1) f
        = (none, (List.range' (k + 1) f).map (fun j => 2 ^ j)) := by
      apply ih (k + 1)
      intro i hi
      have := ht (i + 1) (by omega)
      have harr : k + (i + 1) = k + 1 + i := by omega
      rwa [harr] at this
    have hlist : (List.range' k (f + 1)).map (fun j => 2 ^ j)
        = 2 ^ k :: (List.range' (k + 1) f).map (fun j => 2 ^ j) := by
      rw [List.range'_succ]
      rfl
    cases ho : o k with
    | exc =>
      rw [retryFrom, ho, hrec, hlist]
    | resp r' =>
      have h503 : r'.status = 503 := by
        have := h0
        rw [ho] at this
        simpa [isTransient] using this
      rw [retryFrom, ho]
      dsimp only
      rw [if_pos h503, hrec, hlist]

/-- C2: per attempt, the Retrying Request Client sleeps exactly 2^k time
units after a 503 or a network failure at attempt k (counted from 0) and
retries with no attempt-budget refund, and on any other status it returns
that response at once, with no further attempt and no sleep: whenever the
first m attempts (m < 5) are transient and attempt m yields a non-503
response r, the client returns r with exactly the sleeps 2^0 … 2^(m-1); in
particular three 503s followed by a 200 give sleeps 1, 2, 4 and return the
200 response, losing no data for the batch. -/
theorem c2_retry_backoff (o : Nat → AttemptOutcome) (m : Nat) (r : HttpResponse)
    (hm : m < 5) (ht : ∀ i, i < m → isTransient (o i) = true)
    (hr : o m = .resp r) (hs : r.status ≠ 503) :
    post_with_retry o 5 = (some r, (List.range m).map (fun k => 2 ^ k)) := by
  rw [post_with_retry, List.range_eq_range']
  exact retryFrom_transient_prefix o r hs m 0 5 hm
    (by intro i hi; simpa using ht i hi) (by simpa using hr)

/-- Witness for C2: Scenario 2's attempt schedule (503, 503, 503, 200)
returns the 200 response after sleeping 1, 2 and 4 time units. -/
theorem c2_retry_backoff_witness :
    post_with_retry netScenario2 5
      = (some { status := 200, body := some { products := some [] } }, [1, 2, 4]) :=
  c2_retry_backoff netScenario2 3
    { status := 200, body := some { products := some [] } }
    (by decide) (by decide) rfl (by decide)

/-- C3: when all 5 attempts of a batch end in transient failure (503 or a
network exception), the client returns the explicit no-response signal
(`None`) rather than raising, the batch loop treats that signal as zero
records (no `Except.error`, no table contribution), and processing moves on
to the next batch of the source. -/
theorem c3_exhausted (o : Nat → AttemptOutcome) (net : Nat → Nat → AttemptOutcome)
    (i : Nat) (ht : ∀ k, k < 5 → isTransient (o k) = true) (hnet : net i = o) :
    (post_with_retry o 5).1 = none ∧
    processChunk none = .ok none ∧
    ∀ (c : List String) (cs : List (List String)),
      runChunks net i (c :: cs) = runChunks net (i + 1) cs := by
  have hnone : (post_with_retry o 5).1 = none := by
    rw [post_with_retry, retryFrom_all_transient o 5 0 (by intro k hk; simpa using ht k hk)]
  refine ⟨hnone, rfl, ?_⟩
  intro c cs
  have hstep : chunkStep (net i) = .ok none := by
    rw [chunkStep, hnet, hnone]
    rfl
  rw [runChunks, hstep]

/-- Witness for C3: an oracle raising a network exception at every attempt
returns `none`, and the single-batch loop for it contributes nothing. -/
theorem c3_exhausted_witness :
    (post_with_retry netAllExc 5).1 = none ∧
    runChunks (fun _ => netAllExc) 0 [["x"]] = .ok [] :=
  ⟨(c3_exhausted netAllExc (fun _ => netAllExc) 0 (by decide) rfl).1,
   (c3_exhausted netAllExc (fun _ => netAllExc) 0 (by decide) rfl).2.2 ["x"] []⟩

/- ### Lemmas about the Result Normalizer -/

theorem addMissing_rows (cs : List String) :
    ∀ df : DataFrame, (addMissing df cs).rows = df.rows := by
  induction cs with
  | nil => intro df; rfl
  | cons c cs ih =>
    intro df
    rw [addMissing, List.foldl_cons]
    by_cases h : c ∈ df.cols
    · rw [if_pos h]; exact ih df
    · rw [if_neg h]; exact ih _

theorem addMissing_mem_of_mem (cs : List String) :
    ∀ (df : DataFrame) (c : String), c ∈ df.cols → c ∈ (addMissing df cs).cols := by
  induction cs with
  | nil => intro df c hc; exact hc
  | cons c' cs ih =>
    intro df c hc
    rw [addMissing, List.foldl_cons]
    by_cases h : c' ∈ df.cols
    · rw [if_pos h]; exact ih df c hc
    · rw [if_neg h]
      exact ih _ c (by simp only [List.mem_append]; exact Or.inl hc)

theorem addMissing_mem_added (cs : List String) :
    ∀ (df : DataFrame) (c : String), c ∈ cs → c ∈ (addMissing df cs).cols := by
  induction cs with
  | nil => intro df c hc; cases hc
  | cons c' cs ih =>
    intro df c hc
    rcases List.mem_cons.mp hc with h | h
    · subst h
      rw [addMissing, List.foldl_cons]
      by_cases hm : c ∈ df.cols
      · rw [if_pos hm]
        exact addMissing_mem_of_mem cs df c hm
      · rw [if_neg hm]
        exact addMissing_mem_of_mem cs _ c (by simp)
    · rw [addMissing, List.foldl_cons]
      by_cases hm : c' ∈ df.cols
      · rw [if_pos hm]; exact ih df c h
      · rw [if_neg hm]; exact ih _ c h

theorem projRow_keys (cs : List String) (r : Entry) :
    ∀ p ∈ projRow cs r, p.1 ∈ cs := by
  intro p hp
  rw [projRow, List.mem_filterMap] at hp
  obtain ⟨c, hc, he⟩ := hp
  cases hl : r.lookup c with
  | none => rw [hl] at he; cases he
  | some v =>
    rw [hl] at he
    cases he
    exact hc

theorem projRow_lookup_of_not_mem (r : Entry) (c : String) :
    ∀ cs : List String, c ∉ cs → (projRow cs r).lookup c = none := by
  intro cs
  induction cs with
  | nil => intro _; rfl
  | cons c' cs ih =>
    intro hc
    have hne : c ≠ c' := fun h => hc (h ▸ List.mem_cons_self c' cs)
    have hcs : c ∉ cs := fun h => hc (List.mem_cons_of_mem c' h)
    have hb : (c == c') = false := by
      simp only [beq_eq_false_iff_ne, ne_eq]
      exact hne
    cases hl : r.lookup c' with
    | none =>
      simp only [projRow, List.filterMap_cons, hl, Option.map_none']
      exact ih hcs
    | some v =>
      simp only [projRow, List.filterMap_cons, hl, Option.map_some', List.lookup_cons, hb]
      exact ih hcs

theorem projRow_lookup (r : Entry) (c : String) :
    ∀ cs : List String, cs.Nodup → c ∈ cs →
      (projRow cs r).lookup c = r.lookup c := by
  intro cs
  induction cs with
  | nil => intro _ hc; cases hc
  | cons c' cs ih =>
    intro hnd hc
    have hnd' : cs.Nodup := (List.nodup_cons.mp hnd).2
    have hnin : c' ∉ cs := (List.nodup_cons.mp hnd).1
    rcases List.mem_cons.mp hc with h | h
    · subst h
      cases hl : r.lookup c with
      | none =>
        simp only [projRow, List.filterMap_cons, hl, Option.map_none']
        exact projRow_lookup_of_not_mem r c cs hnin
      | some v =>
        have hb : (c == c) = true := beq_self_eq_true c
        simp only [projRow, List.filterMap_cons, hl, Option.map_some', List.lookup_cons, hb]
    · have hne : c ≠ c' := fun he => hnin (he ▸ h)
      have hb : (c == c') = false := by
        simp only [beq_eq_false_iff_ne, ne_eq]
        exact hne
      cases hl : r.lookup c' with
      | none =>
        simp only [projRow, List.filterMap_cons, hl, Option.map_none']
        exact ih hnd' h
      | some v =>
        simp only [projRow, List.filterMap_cons, hl, Option.map_some', List.lookup_cons, hb]
        exact ih hnd' h

theorem columns_nodup : COLUMNS_OF_INTEREST.Nodup := by decide

theorem normalizeProducts_eq (entries : List Entry) :
    normalizeProducts entries
      = some { cols := COLUMNS_OF_INTEREST,
               rows := entries.map (projRow COLUMNS_OF_INTEREST) } := by
  have hmem : ∀ c ∈ COLUMNS_OF_INTEREST,
      c ∈ (addMissing (jsonNormalize entries) COLUMNS_OF_INTEREST).cols :=
    fun c hc => addMissing_mem_added COLUMNS_OF_INTEREST _ c hc
  have hr : (addMissing (jsonNormalize entries) COLUMNS_OF_INTEREST).rows = entries :=
    addMissing_rows COLUMNS_OF_INTEREST (jsonNormalize entries)
  rw [normalizeProducts, selectCols, if_pos hmem, hr]

theorem normalizeProducts_schemaOK (entries : List Entry) (df : DataFrame)
    (h : normalizeProducts entries = some df) : schemaOK df := by
  rw [normalizeProducts_eq] at h
  cases h
  constructor
  · rfl
  · intro r hr
    rw [List.mem_map] at hr
    obtain ⟨e, _, he⟩ := hr
    subst he
    intro p hp
    exact projRow_keys _ e p hp

theorem processChunk_ok_schemaOK (resp : Option HttpResponse) (df : DataFrame)
    (h : processChunk resp = .ok (some df)) : schemaOK df := by
  cases resp with
  | none => simp [processChunk] at h
  | some r =>
    rw [processChunk] at h
    by_cases hs : r.status = 200
    · rw [if_pos hs] at h
      cases hb : r.body with
      | none => rw [hb] at h; simp at h
      | some payload =>
        rw [hb] at h
        dsimp only at h
        cases hp : payload.products with
        | none => rw [hp] at h; simp at h
        | some entries =>
          rw [hp] at h
          dsimp only at h
          cases hn : normalizeProducts entries with
          | none => rw [hn] at h; simp at h
          | some df' =>
            rw [hn] at h
            simp only [Except.ok.injEq, Option.some.injEq] at h
            subst h
            exact normalizeProducts_schemaOK entries df' hn
    · rw [if_neg hs] at h
      simp at h

theorem dedupAcc_append (l₁ : List String) :
    ∀ (acc l₂ : List String),
      dedupAcc acc (l₁ ++ l₂) = dedupAcc (dedupAcc acc l₁) l₂ := by
  induction l₁ with
  | nil => intro acc l₂; rfl
  | cons a l ih =>
    intro acc l₂
    rw [List.cons_append, dedupAcc, dedupAcc]
    by_cases h : a ∈ acc
    · rw [if_pos h, if_pos h]
      exact ih acc l₂
    · rw [if_neg h, if_neg h]
      exact ih _ l₂

theorem dedupAcc_of_subset :
    ∀ (l acc : List String), (∀ a ∈ l, a ∈ acc) → dedupAcc acc l = acc := by
  intro l
  induction l with
  | nil => intro acc _; rfl
  | cons a l ih =>
    intro acc h
    rw [dedupAcc, if_pos (h a (List.mem_cons_self a l))]
    exact ih acc (fun b hb => h b (List.mem_cons_of_mem a hb))

theorem dedupAcc_nil_columns :
    dedupAcc [] COLUMNS_OF_INTEREST = COLUMNS_OF_INTEREST := by decide

theorem concatDF_schemaOK (dfs : List DataFrame) (hne : dfs ≠ [])
    (h : ∀ df ∈ dfs, schemaOK df) : schemaOK (concatDF dfs) := by
  cases dfs with
  | nil => cases hne rfl
  | cons d ds =>
    have hd : d.cols = COLUMNS_OF_INTEREST := (h d (List.mem_cons_self d ds)).1
    constructor
    · show dedupFirst ((d :: ds).flatMap DataFrame.cols) = COLUMNS_OF_INTEREST
      rw [dedupFirst, List.flatMap_cons, dedupAcc_append, hd, dedupAcc_nil_columns]
      apply dedupAcc_of_subset
      intro a ha
      rw [List.mem_flatMap] at ha
      obtain ⟨df, hdf, hadf⟩ := ha
      rw [(h df (List.mem_cons_of_mem d hdf)).1] at hadf
      exact hadf
    · intro r hr
      have hr' : r ∈ (d :: ds).flatMap DataFrame.rows := hr
      rw [List.mem_flatMap] at hr'
      obtain ⟨df, hdf, hrdf⟩ := hr'
      exact (h df hdf).2 r hrdf

theorem runChunks_schemaOK (net : Nat → Nat → AttemptOutcome) :
    ∀ (cs : List (List String)) (i : Nat) (dfs : List DataFrame),
      runChunks net i cs = .ok dfs → ∀ df ∈ dfs, schemaOK df := by
  intro cs
  induction cs with
  | nil =>
    intro i dfs h df hdf
    cases h
    cases hdf
  | cons c cs ih =>
    intro i dfs h df hdf
    rw [runChunks] at h
    cases hstep : chunkStep (net i) with
    | error e => rw [hstep] at h; cases h
    | ok o =>
      cases o with
      | none =>
        rw [hstep] at h
        exact ih (i + 1) dfs h df hdf
      | some df' =>
        rw [hstep] at h
        cases hrec : runChunks net (i + 1) cs with
        | error e => rw [hrec] at h; cases h
        | ok dfs' =>
          rw [hrec] at h
          cases h
          rcases List.mem_cons.mp hdf with h1 | h1
          · subst h1
            exact processChunk_ok_schemaOK _ df hstep
          · exact ih (i + 1) dfs' hrec df h1

theorem processFile_schemaOK (src : Source) (t : DataFrame)
    (h : processFile src = .ok (.ok t)) : schemaOK t := by
  rw [processFile] at h
  cases hf : src.frame with
  | none => rw [hf] at h; simp at h
  | some f =>
    rw [hf] at h
    dsimp only at h
    cases hg : findGtinCol f with
    | none => rw [hg] at h; simp at h
    | some gc =>
      rw [hg] at h
      dsimp only at h
      by_cases hgt : extractGtins (colCells f gc) = []
      · rw [if_pos hgt] at h; simp at h
      · rw [if_neg hgt] at h
        cases hr : runChunks src.net 0 (chunk_list (extractGtins (colCells f gc)) 10) with
        | error e => rw [hr] at h; simp at h
        | ok dfs =>
          rw [hr] at h
          cases dfs with
          | nil => simp at h
          | cons d ds =>
            simp only [Except.ok.injEq, FileResult.ok.injEq] at h
            subst h
            exact concatDF_schemaOK (d :: ds) (by simp)
              (runChunks_schemaOK src.net _ 0 _ hr)

theorem dictInsert_schemaOK (d : List (String × DataFrame)) (k : String)
    (v : DataFrame) (hd : ∀ p ∈ d, schemaOK p.2) (hv : schemaOK v) :
    ∀ p ∈ dictInsert d k v, schemaOK p.2 := by
  intro p hp
  rw [dictInsert] at hp
  by_cases h : d.any (fun q => q.1 == k)
  · rw [if_pos h] at hp
    rw [List.mem_map] at hp
    obtain ⟨q, hq, he⟩ := hp
    by_cases hqk : q.1 == k
    · rw [if_pos hqk] at he
      subst he
      exact hv
    · rw [if_neg hqk] at he
      subst he
      exact hd q hq
  · rw [if_neg h] at hp
    rcases List.mem_append.mp hp with h1 | h1
    · exact hd p h1
    · rw [List.mem_singleton] at h1
      subst h1
      exact hv

theorem runFiles_schemaOK :
    ∀ (ss : List Source) (a : List DataFrame) (d : List (String × DataFrame))
      (ad : List DataFrame) (ind : List (String × DataFrame)),
      runFiles a d ss = .ok (ad, ind) →
      (∀ df ∈ a, schemaOK df) → (∀ p ∈ d, schemaOK p.2) →
      (∀ df ∈ ad, schemaOK df) ∧ (∀ p ∈ ind, schemaOK p.2) := by
  intro ss
  induction ss with
  | nil =>
    intro a d ad ind h ha hd
    cases h
    exact ⟨ha, hd⟩
  | cons s ss ih =>
    intro a d ad ind h ha hd
    rw [runFiles] at h
    cases hp : processFile s with
    | error e => rw [hp] at h; cases h
    | ok fr =>
      rw [hp] at h
      cases fr with
      | ok t =>
        refine ih _ _ ad ind h ?_ ?_
        · intro df hdf
          rcases List.mem_append.mp hdf with h1 | h1
          · exact ha df h1
          · rw [List.mem_singleton] at h1
            subst h1
            exact processFile_schemaOK s df hp
        · exact dictInsert_schemaOK d s.name t hd (processFile_schemaOK s t hp)
      | readError => exact ih _ _ ad ind h ha hd
      | noColumn => exact ih _ _ ad ind h ha hd
      | noGtins => exact ih _ _ ad ind h ha hd
      | noValidResults => exact ih _ _ ad ind h ha hd

/-- C4: every Product Record produced by the Result Normalizer has exactly
the five schema fields in the fixed order — the normalizer always succeeds,
its output has exactly `COLUMNS_OF_INTEREST` as columns, each raw entry
yields one record whose every schema field equals that entry's value (the
missing marker when absent) and which carries no other field; and in every
finalized run, the Combined Table and every Source Result Table have this
fixed schema with every record defined only on the five columns. -/
theorem c4_schema (entries : List Entry) (srcs : List Source)
    (ind : List (String × DataFrame)) (comb : DataFrame)
    (hrun : runMain srcs = .ok (.success ind comb)) :
    (normalizeProducts entries
        = some { cols := COLUMNS_OF_INTEREST,
                 rows := entries.map (projRow COLUMNS_OF_INTEREST) } ∧
     List.Forall₂ (fun row e => rowConforms row ∧
         ∀ c ∈ COLUMNS_OF_INTEREST, row.lookup c = e.lookup c)
       (entries.map (projRow COLUMNS_OF_INTEREST)) entries) ∧
    schemaOK comb ∧ (∀ p ∈ ind, schemaOK p.2) := by
  refine ⟨⟨normalizeProducts_eq entries, ?_⟩, ?_⟩
  · rw [List.forall₂_map_left_iff, List.forall₂_same]
    intro e _
    constructor
    · intro p hp
      exact projRow_keys _ e p hp
    · intro c hc
      exact projRow_lookup e c COLUMNS_OF_INTEREST columns_nodup hc
  · rw [runMain] at hrun
    cases hr : runFiles [] [] srcs with
    | error e => rw [hr] at hrun; cases hrun
    | ok p =>
      obtain ⟨ad, ind'⟩ := p
      rw [hr] at hrun
      dsimp only at hrun
      by_cases hemp : ad.isEmpty
      · rw [if_pos hemp] at hrun; simp at hrun
      · rw [if_neg hemp] at hrun
        simp only [Except.ok.injEq, RunOutcome.success.injEq] at hrun
        obtain ⟨hind, hcomb⟩ := hrun
        have hall := runFiles_schemaOK srcs [] [] ad ind' hr
          (by intro df hdf; cases hdf) (by intro p hp; cases hp)
        refine ⟨?_, by rw [← hind]; exact hall.2⟩
        rw [← hcomb]
        exact concatDF_schemaOK ad
          (by intro hnil; rw [hnil] at hemp; exact hemp rfl)
          hall.1

/-- Witness for C4: one source with a single product entry `{"gtin": "A"}`
finalizes a run whose combined table is `tblA`, which has the fixed schema;
the normalizer on that entry yields exactly the `tblA` row. -/
theorem c4_schema_witness :
    schemaOK tblA ∧
    normalizeProducts [[("gtin", "A")]]
      = some { cols := COLUMNS_OF_INTEREST, rows := [[("gtin", "A")]] } :=
  ⟨(c4_schema [[("gtin", "A")]] [srcA] [("f.csv", tblA)] tblA rfl).2.1,
   (c4_schema [[("gtin", "A")]] [srcA] [("f.csv", tblA)] tblA rfl).1.1⟩

/- ### Lemmas about the Run Aggregator -/

theorem runFiles_allData :
    ∀ (ss : List Source) (a : List DataFrame) (d : List (String × DataFrame))
      (ad : List DataFrame) (ind : List (String × DataFrame)),
      runFiles a d ss = .ok (ad, ind) → ad = a ++ okTables ss := by
  intro ss
  induction ss with
  | nil =>
    intro a d ad ind h
    cases h
    simp [okTables]
  | cons s ss ih =>
    intro a d ad ind h
    rw [runFiles] at h
    rw [okTables]
    cases hp : processFile s with
    | error e => rw [hp] at h; cases h
    | ok fr =>
      rw [hp] at h
      cases fr with
      | ok t =>
        have := ih _ _ ad ind h
        rw [this, List.append_assoc]
        rfl
      | readError => exact ih _ _ ad ind h
      | noColumn => exact ih _ _ ad ind h
      | noGtins => exact ih _ _ ad ind h
      | noValidResults => exact ih _ _ ad ind h

/-- C5: after all sources are processed, if at least one Source Result Table
was collected the run finalizes the Run Result Set: the combined table is
the concatenation of the collected tables in processing order, together with
the name-to-table mapping; if zero tables were collected the run signals the
run-level "no data was processed" failure and produces neither a Combined
Table nor a Run Result Set. -/
theorem c5_run_finalize (srcs : List Source) (ad : List DataFrame)
    (ind : List (String × DataFrame))
    (h : runFiles [] [] srcs = .ok (ad, ind)) :
    (okTables srcs ≠ [] →
      runMain srcs = .ok (.success ind (concatDF (okTables srcs)))) ∧
    (okTables srcs = [] → runMain srcs = .ok .noData) := by
  have had : ad = okTables srcs := by
    have := runFiles_allData srcs [] [] ad ind h
    simpa using this
  constructor
  · intro hne
    rw [runMain, h]
    dsimp only
    rw [if_neg (by rw [had, List.isEmpty_iff]; exact hne), had]
  · intro hnil
    rw [runMain, h]
    dsimp only
    rw [if_pos (by rw [had, hnil]; rfl)]

/-- Witness for C5: a run over the single well-formed source `srcA`
finalizes with combined table `tblA`; a run over only the SKU-column source
collects no table and ends in the run-level failure. -/
theorem c5_run_finalize_witness :
    runMain [srcA] = .ok (.success [("f.csv", tblA)] (concatDF (okTables [srcA]))) ∧
    runMain [srcSku] = .ok .noData :=
  ⟨(c5_run_finalize [srcA] [tblA] [("f.csv", tblA)] rfl).1 (by decide),
   (c5_run_finalize [srcSku] [] [] rfl).2 (by decide)⟩

theorem dictInsert_fresh (d : List (String × DataFrame)) (k : String)
    (v : DataFrame) (h : ∀ p ∈ d, p.1 ≠ k) :
    dictInsert d k v = d ++ [(k, v)] := by
  rw [dictInsert, if_neg]
  intro hc
  rw [List.any_eq_true] at hc
  obtain ⟨p, hp, hb⟩ := hc
  exact h p hp (by simpa using hb)

theorem runFiles_distinct_names :
    ∀ (ss : List Source) (a : List DataFrame) (d : List (String × DataFrame))
      (ad : List DataFrame) (ind : List (String × DataFrame)),
      (ss.map Source.name).Nodup →
      (∀ k ∈ d.map Prod.fst, k ∉ ss.map Source.name) →
      a = d.map Prod.snd →
      runFiles a d ss = .ok (ad, ind) →
      ad = ind.map Prod.snd := by
  intro ss
  induction ss with
  | nil =>
    intro a d ad ind _ _ ha h
    cases h
    exact ha
  | cons s ss ih =>
    intro a d ad ind hnd hdis ha h
    rw [List.map_cons] at hnd
    have hnm : s.name ∉ ss.map Source.name := (List.nodup_cons.mp hnd).1
    have hnd' : (ss.map Source.name).Nodup := (List.nodup_cons.mp hnd).2
    rw [runFiles] at h
    cases hp : processFile s with
    | error e => rw [hp] at h; cases h
    | ok fr =>
      rw [hp] at h
      cases fr with
      | ok t =>
        dsimp only at h
        have hfresh : ∀ p ∈ d, p.1 ≠ s.name := by
          intro p hpd he
          have hk : p.1 ∈ d.map Prod.fst := List.mem_map_of_mem Prod.fst hpd
          have := hdis p.1 hk
          exact this (by rw [he]; exact List.mem_cons_self _ _)
        rw [dictInsert_fresh d s.name t hfresh] at h
        refine ih _ _ ad ind hnd' ?_ ?_ h
        · intro k hk hmem
          rw [List.map_append] at hk
          rcases List.mem_append.mp hk with h1 | h1
          · exact hdis k h1 (List.mem_cons_of_mem _ hmem)
          · rw [List.map_singleton, List.mem_singleton] at h1
            subst h1
            exact hnm hmem
        · rw [ha, List.map_append]
          rfl
      | readError =>
        exact ih _ _ ad ind hnd'
          (fun k hk hm => hdis k hk (List.mem_cons_of_mem _ hm)) ha h
      | noColumn =>
        exact ih _ _ ad ind hnd'
          (fun k hk hm => hdis k hk (List.mem_cons_of_mem _ hm)) ha h
      | noGtins =>
        exact ih _ _ ad ind hnd'
          (fun k hk hm => hdis k hk (List.mem_cons_of_mem _ hm)) ha h
      | noValidResults =>
        exact ih _ _ ad ind hnd'
          (fun k hk hm => hdis k hk (List.mem_cons_of_mem _ hm)) ha h

/-- C6 (amended): for every run over sources with pairwise distinct names
that finalizes a Run Result Set, the rows of the Combined Table are exactly
the concatenation of the rows of the Source Result Tables of the Run Result
Set in processing order — so every combined record occurrence comes from
exactly one source table, none is missing and none is duplicated. When two
sources carry the same name this fails (see the counterexample): the dict
write `individual_results[name] = table` overwrites the earlier table while
`all_data` keeps both. -/
theorem c6_provenance (srcs : List Source) (ind : List (String × DataFrame))
    (comb : DataFrame) (hnd : (srcs.map Source.name).Nodup)
    (h : runMain srcs = .ok (.success ind comb)) :
    comb.rows = (ind.map (fun p => p.2.rows)).flatten := by
  rw [runMain] at h
  cases hr : runFiles [] [] srcs with
  | error e => rw [hr] at h; cases h
  | ok p =>
    obtain ⟨ad, ind'⟩ := p
    rw [hr] at h
    dsimp only at h
    by_cases hemp : ad.isEmpty
    · rw [if_pos hemp] at h; simp at h
    · rw [if_neg hemp] at h
      simp only [Except.ok.injEq, RunOutcome.success.injEq] at h
      obtain ⟨hind, hcomb⟩ := h
      have had : ad = ind'.map Prod.snd :=
        runFiles_distinct_names srcs [] [] ad ind' hnd
          (by intro k hk; cases hk) rfl hr
      rw [← hcomb, ← hind, had]
      show ((ind'.map Prod.snd).flatMap DataFrame.rows)
          = (ind'.map (fun p => p.2.rows)).flatten
      rw [List.flatMap_def, List.map_map]
      rfl

/-- Witness for C6 (amended): the two distinctly-named sources `srcA` and
`srcGood` finalize a run whose combined rows are the concatenation of the
two source tables' rows. -/
theorem c6_provenance_witness :
    (DataFrame.mk COLUMNS_OF_INTEREST [[("gtin", "A")], [("gtin", "G")]]).rows
      = ([("f.csv", tblA), ("g.csv", tblG)].map (fun p => p.2.rows)).flatten :=
  c6_provenance [srcA, srcGood] [("f.csv", tblA), ("g.csv", tblG)] _
    (by decide) rfl

/-- Counterexample for C6 as stated: two sources both named `f.csv` finalize
a run whose Run Result Set holds only the second source's table (the dict
write overwrote the first), while the Combined Table still contains the
first source's record `{"gtin": "A"}` — that record appears in no Source
Result Table of the Run Result Set. -/
theorem c6_counterexample :
    runMain [srcA, srcB] = .ok (.success [("f.csv", tblB)] combAB) ∧
    [("gtin", "A")] ∈ combAB.rows ∧
    ∀ p ∈ [("f.csv", tblB)], [("gtin", "A")] ∉ p.2.rows :=
  ⟨rfl, by decide, by decide⟩

/- ### Lemmas about source skipping -/

theorem findGtinCol_isSome (f : RawFrame) :
    (findGtinCol f).isSome ↔ ∃ c ∈ colNames f, lowerStr c = "gtin" := by
  rw [findGtinCol, List.getLast?_isSome]
  constructor
  · intro hne
    have : ∃ c ∈ colNames f, (lowerStr c == "gtin") = true := by
      by_contra hc
      push_neg at hc
      exact hne (List.filter_eq_nil_iff.mpr
        (by intro a ha; simpa using hc a ha))
    obtain ⟨c, hc, hb⟩ := this
    exact ⟨c, hc, by simpa using hb⟩
  · intro ⟨c, hc, hb⟩ hnil
    have := List.filter_eq_nil_iff.mp hnil c hc
    exact this (by simpa using hb)

theorem findGtinCol_eq_none (f : RawFrame)
    (h : ∀ c ∈ colNames f, lowerStr c ≠ "gtin") : findGtinCol f = none := by
  rw [findGtinCol, List.getLast?_eq_none_iff]
  exact List.filter_eq_nil_iff.mpr (fun c hc => by simpa using h c hc)

theorem processFile_noColumn (src : Source) (f : RawFrame)
    (hf : src.frame = some f)
    (h : ∀ c ∈ colNames f, lowerStr c ≠ "gtin") :
    processFile src = .ok .noColumn := by
  rw [processFile, hf]
  dsimp only
  rw [findGtinCol_eq_none f h]

theorem processFile_noGtins (src : Source) (f : RawFrame) (gc : String)
    (hf : src.frame = some f) (hg : findGtinCol f = some gc)
    (he : extractGtins (colCells f gc) = []) :
    processFile src = .ok .noGtins := by
  rw [processFile, hf]
  dsimp only
  rw [hg]
  dsimp only
  rw [if_pos he]

theorem runFiles_skip (src : Source)
    (hp : processFile src = .ok .noColumn ∨ processFile src = .ok .noGtins) :
    ∀ (l : List Source) (a : List DataFrame) (d : List (String × DataFrame))
      (r : List Source),
      runFiles a d (l ++ src :: r) = runFiles a d (l ++ r) := by
  intro l
  induction l with
  | nil =>
    intro a d r
    rcases hp with h | h
    · rw [List.nil_append, List.nil_append, runFiles, h]
    · rw [List.nil_append, List.nil_append, runFiles, h]
  | cons s l ih =>
    intro a d r
    rw [List.cons_append, List.cons_append, runFiles, runFiles]
    cases hps : processFile s with
    | error e => rfl
    | ok fr =>
      cases fr with
      | ok t => exact ih _ _ r
      | readError => exact ih _ _ r
      | noColumn => exact ih _ _ r
      | noGtins => exact ih _ _ r
      | noValidResults => exact ih _ _ r

/-- C7: the identifier column is matched case-insensitively against `gtin`
(a column is found exactly when some column name lowercases to `"gtin"`);
a source with no matching column, or whose extracted identifier list is
empty, is skipped — it contributes no entry to the run and the run over the
remaining sources is unchanged, so the run still succeeds whenever another
source succeeds. -/
theorem c7_skip (src : Source) (f : RawFrame) (hf : src.frame = some f)
    (h : (∀ c ∈ colNames f, lowerStr c ≠ "gtin") ∨
         (∃ gc, findGtinCol f = some gc ∧ extractGtins (colCells f gc) = [])) :
    ((findGtinCol f).isSome ↔ ∃ c ∈ colNames f, lowerStr c = "gtin") ∧
    (processFile src = .ok .noColumn ∨ processFile src = .ok .noGtins) ∧
    ∀ (l r : List Source), runMain (l ++ src :: r) = runMain (l ++ r) := by
  have hp : processFile src = .ok .noColumn ∨ processFile src = .ok .noGtins := by
    rcases h with h | ⟨gc, hg, he⟩
    · exact Or.inl (processFile_noColumn src f hf h)
    · exact Or.inr (processFile_noGtins src f gc hf hg he)
  refine ⟨findGtinCol_isSome f, hp, ?_⟩
  intro l r
  rw [runMain, runMain, runFiles_skip src hp l [] [] r]

/-- Witness for C7: the `SKU`-column source is skipped with the
missing-column warning, and a run over it followed by a well-formed source
equals the run over the well-formed source alone (Scenario 3). -/
theorem c7_skip_witness :
    (processFile srcSku = .ok .noColumn ∨ processFile srcSku = .ok .noGtins) ∧
    runMain [srcSku, srcGood] = runMain [srcGood] := by
  have h := c7_skip srcSku ⟨[("SKU", ["1"])]⟩ rfl (Or.inl (by decide))
  exact ⟨h.2.1, h.2.2 [] [srcGood]⟩

/-- C8: for a source whose identifier column is named `GTIN` (mixed case)
and whose raw column values are `["00012345678905", "", "00098765432109"]`,
the column is matched case-insensitively, the empty value reads as missing
and is dropped by `dropna`, extraction yields the ordered list
`["00012345678905", "00098765432109"]`, and chunking with the batch size 10
gives a single batch of size 2. -/
theorem c8_scenario1 :
    findGtinCol ⟨[("GTIN", ["00012345678905", "", "00098765432109"])]⟩
      = some "GTIN" ∧
    readCell "" = none ∧
    extractGtins ["00012345678905", "", "00098765432109"]
      = ["00012345678905", "00098765432109"] ∧
    chunk_list (extractGtins ["00012345678905", "", "00098765432109"]) 10
      = [["00012345678905", "00098765432109"]] :=
  ⟨rfl, rfl, rfl, rfl⟩

/-- C9: a 200 response whose payload has no `products` key contributes zero
records for its batch, raises no error, and the batch loop continues with
the next batch. -/
theorem c9_no_products (r : HttpResponse) (p : Payload)
    (hs : r.status = 200) (hb : r.body = some p) (hp : p.products = none) :
    processChunk (some r) = .ok none ∧
    ∀ (net : Nat → Nat → AttemptOutcome) (i : Nat) (c : List String)
      (cs : List (List String)),
      (post_with_retry (net i) 5).1 = some r →
      runChunks net i (c :: cs) = runChunks net (i + 1) cs := by
  have hpc : processChunk (some r) = .ok none := by
    rw [processChunk, if_pos hs, hb]
    dsimp only
    rw [hp]
  refine ⟨hpc, ?_⟩
  intro net i c cs hpost
  have hstep : chunkStep (net i) = .ok none := by
    rw [chunkStep, hpost, hpc]
  rw [runChunks, hstep]

/-- Witness for C9: a constant oracle answering 200 with a payload lacking
`products` yields zero records and an empty result list for one batch. -/
theorem c9_no_products_witness :
    processChunk (some { status := 200, body := some { products := none } })
      = .ok none ∧
    runChunks (fun _ _ => .resp { status := 200, body := some { products := none } })
      0 [["x"]] = .ok [] := by
  have h := c9_no_products { status := 200, body := some { products := none } }
    { products := none } rfl rfl rfl
  exact ⟨h.1, h.2 _ 0 ["x"] [] rfl⟩

/- ### Lemmas about exception propagation -/

theorem runChunks_error (net : Nat → Nat → AttemptOutcome) :
    ∀ (cs : List (List String)) (i j : Nat), j < cs.length →
      chunkStep (net (i + j)) = .error () →
      runChunks net i cs = .error () := by
  intro cs
  induction cs with
  | nil => intro i j hj _; cases hj
  | cons c cs ih =>
    intro i j hj hstep
    cases j with
    | zero =>
      rw [Nat.add_zero] at hstep
      rw [runChunks, hstep]
    | succ j =>
      rw [runChunks]
      cases he : chunkStep (net i) with
      | error e => cases e; rfl
      | ok o =>
        have hrec : runChunks net (i + 1) cs = .error () := by
          refine ih (i + 1) j (by simpa using hj) ?_
          have : i + 1 + j = i + (j + 1) := by omega
          rw [this]
          exact hstep
        cases o with
        | none => exact hrec
        | some df => rw [hrec]

theorem runFiles_error (src : Source) (hp : processFile src = .error ()) :
    ∀ (l : List Source) (a : List DataFrame) (d : List (String × DataFrame))
      (rest : List Source),
      runFiles a d (l ++ src :: rest) = .error () := by
  intro l
  induction l with
  | nil =>
    intro a d rest
    rw [List.nil_append, runFiles, hp]
  | cons s l ih =>
    intro a d rest
    rw [List.cons_append, runFiles]
    cases hps : processFile s with
    | error e => cases e; rfl
    | ok fr =>
      cases fr with
      | ok t => exact ih _ _ rest
      | readError => exact ih _ _ rest
      | noColumn => exact ih _ _ rest
      | noGtins => exact ih _ _ rest
      | noValidResults => exact ih _ _ rest

/-- C10 (implicit): `post_with_retry` returns any non-503 response without
inspecting its body, and the batch loop then calls `response.json()` on a
200 response unconditionally — so a batch whose final response is a 200
with a body that is not valid JSON raises an exception that escapes the
batch loop and aborts the whole run, instead of being absorbed as a
per-batch warning. -/
theorem c10_bad_json (src : Source) (f : RawFrame) (gc : String) (j : Nat)
    (r : HttpResponse) (hf : src.frame = some f)
    (hg : findGtinCol f = some gc)
    (hne : extractGtins (colCells f gc) ≠ [])
    (hj : j < (chunk_list (extractGtins (colCells f gc)) 10).length)
    (hpost : (post_with_retry (src.net j) 5).1 = some r)
    (hs : r.status = 200) (hb : r.body = none) :
    (∀ (o : Nat → AttemptOutcome) (r' : HttpResponse),
      o 0 = .resp r' → r'.status ≠ 503 → (post_with_retry o 5).1 = some r') ∧
    processFile src = .error () ∧
    ∀ (l rest : List Source), runMain (l ++ src :: rest) = .error () := by
  have hfirst : ∀ (o : Nat → AttemptOutcome) (r' : HttpResponse),
      o 0 = .resp r' → r'.status ≠ 503 → (post_with_retry o 5).1 = some r' := by
    intro o r' ho hs'
    rw [post_with_retry,
      retryFrom_transient_prefix o r' hs' 0 0 5 (by omega) (by intro i hi; omega) ho]
  have hchunk : processChunk (some r) = .error () := by
    rw [processChunk, if_pos hs, hb]
  have hstep : chunkStep (src.net j) = .error () := by
    rw [chunkStep, hpost, hchunk]
  have herr : runChunks src.net 0 (chunk_list (extractGtins (colCells f gc)) 10)
      = .error () := by
    refine runChunks_error src.net _ 0 j hj ?_
    rw [Nat.zero_add]
    exact hstep
  have hfile : processFile src = .error () := by
    rw [processFile, hf]
    dsimp only
    rw [hg]
    dsimp only
    rw [if_neg hne, herr]
  refine ⟨hfirst, hfile, ?_⟩
  intro l rest
  rw [runMain, runFiles_error src hfile l [] [] rest]

/-- Witness for C10: the source whose single batch gets a 200 response with
an invalid-JSON body makes the file processing raise and the run abort. -/
theorem c10_bad_json_witness :
    processFile srcBadJson = .error () ∧ runMain [srcBadJson] = .error () := by
  have h := c10_bad_json srcBadJson ⟨[("gtin", ["Z"])]⟩ "gtin" 0
    { status := 200, body := none } rfl rfl (by decide) (by decide) rfl rfl rfl
  exact ⟨h.2.1, h.2.2 [] []⟩
